import Mathlib

/-!
# Verification of the UPI transaction analysis pipeline

Shallow embedding of `src/upi_analysis.py`: ingestion/cleaning
(`load_and_clean_data`), feature derivation (`create_features`), the
evaluation split with the external forecaster abstracted
(`forecast_transactions`, modelled by `trainSplit`/`testSplit`/
`evalPredictions`), the scoring metrics (`mean_absolute_error`,
`mean_squared_error`, RMSE as the real square root of the latter), and the
full-horizon forecast grid.

Numeric cells are exact rationals.  Pandas float special values that the
script can produce (NaN from 0/0 and from a missing 12-period lag,
±infinity from division by zero) are modelled explicitly by the `PdVal`
type, so that "undefined" claims are about the code's own NaN/inf
behaviour rather than an invented error channel.
-/

/-- A calendar date, as produced by `pd.to_datetime(f"{year}-{month}-01")`.
All dates built by the pipeline are first-of-month dates. -/
structure Date where
  year : Nat
  month : Nat
  day : Nat
deriving DecidableEq, Repr

/-- Absolute month index of a (first-of-month) date; orders dates that share
`day = 1` exactly as the underlying timestamps are ordered. -/
def monthIdx (d : Date) : Nat := 12 * d.year + (d.month - 1)

/-- The first day of the month after `d` (the `freq='MS'` step used by
`make_future_dataframe`). -/
def nextMonth (d : Date) : Date :=
  if d.month = 12 then ⟨d.year + 1, 1, 1⟩ else ⟨d.year, d.month + 1, 1⟩

/-- Consecutive first-of-month dates: `n` of them starting at `d`. -/
def monthsFrom (d : Date) : Nat → List Date
  | 0 => []
  | n + 1 => d :: monthsFrom (nextMonth d) n

/-- A raw CSV cell in one of the two numeric columns: a numeric token, a
non-numeric token, or an empty cell.  `pd.to_numeric(errors='coerce')`
turns the latter two into NaN (modelled as `none`). -/
inductive RawCell where
  | numTok (q : ℚ)
  | strTok
  | missing
deriving DecidableEq, Repr

/-- Coercion `pd.to_numeric(cell, errors='coerce')`: numeric tokens survive, anything
else becomes missing. -/
def toNumeric : RawCell → Option ℚ
  | RawCell.numTok q => some q
  | RawCell.strTok => none
  | RawCell.missing => none

/-- A raw input row after positional column renaming:
`(Year, Month, TransactionVolume_Cr, TransactionValue_RsCr)`. -/
structure RawRow where
  year : Nat
  month : Nat
  volumeCell : RawCell
  valueCell : RawCell
deriving DecidableEq, Repr

/-- The date string `f"{year}-{month}-01"` parses iff the month is a real
calendar month.  (Timestamp year-range limits are not modelled; no claim
touches them.) -/
def validMonth (r : RawRow) : Bool := 1 ≤ r.month && r.month ≤ 12

/-- The period key `pd.to_datetime(Year + '-' + Month + '-01')` derives for
a row: the first day of (year, month). -/
def mkDate (r : RawRow) : Date := ⟨r.year, r.month, 1⟩

/-- A cleaned time-series entry: the row of the cleaned dataframe at one
date-index value. -/
structure Entry where
  period : Date
  volume : ℚ
  value : ℚ
deriving DecidableEq, Repr

instance : Inhabited Date := ⟨⟨0, 0, 0⟩⟩

instance : Inhabited Entry := ⟨⟨default, 0, 0⟩⟩

/-- One row's fate under coercion plus `dropna`: kept (with both numeric
fields coerced) iff both cells coerce to non-missing numbers. -/
def coerceRow (r : RawRow) : Option Entry :=
  match toNumeric r.volumeCell, toNumeric r.valueCell with
  | some v, some w => some ⟨mkDate r, v, w⟩
  | _, _ => none

/-- How `load_and_clean_data` can fail: the `except FileNotFoundError`
branch (prints and returns `None`), or the uncaught `ValueError` that
`pd.to_datetime` raises on an invalid (year, month) string — the latter is
not caught anywhere in the script. -/
inductive LoadErr where
  | fileNotFound
  | invalidDate
deriving DecidableEq, Repr

/-- Ingestion, `load_and_clean_data`: a `none` input models an unopenable file.
`pd.to_datetime` runs over the whole column before any numeric coercion,
so one invalid (year, month) pair aborts the run; otherwise volume/value
are coerced and rows with any missing value are dropped.  Row order is
preserved; nothing sorts by date. -/
def load_and_clean_data : Option (List RawRow) → Except LoadErr (List Entry)
  | none => Except.error LoadErr.fileNotFound
  | some rows =>
      if rows.all validMonth then
        Except.ok (rows.filterMap coerceRow)
      else
        Except.error LoadErr.invalidDate

/-- Round to 2 decimal places (the script's `round(…, 2)`; the claims never
exercise exact half-cent ties, where numpy would round half to even). -/
def round2 (q : ℚ) : ℚ := (round (q * 100) : ℤ) / 100

/-- A pandas float value: an ordinary number, ±infinity, or NaN. -/
inductive PdVal where
  | num (q : ℚ)
  | posInf
  | negInf
  | nan
deriving DecidableEq, Repr

/-- Elementwise float division as pandas performs it: ordinary division for
a nonzero denominator, ±infinity for a signed numerator over zero, NaN for
0/0. -/
def pdDiv (a b : ℚ) : PdVal :=
  if b ≠ 0 then PdVal.num (a / b)
  else if 0 < a then PdVal.posInf
  else if a < 0 then PdVal.negInf
  else PdVal.nan

/-- Apply a finite-valued operation elementwise; NaN and ±infinity pass
through, which is how `x - 1`, `x * 100` (positive factor) and
`round(x, 2)` behave on the special float values. -/
def PdVal.app (f : ℚ → ℚ) : PdVal → PdVal
  | PdVal.num q => PdVal.num (f q)
  | PdVal.posInf => PdVal.posInf
  | PdVal.negInf => PdVal.negInf
  | PdVal.nan => PdVal.nan

/-- A row of the featured dataframe: the original entry plus the two
engineered columns `AvgTransactionValue_Rs` and `YoY_Volume_Growth_%`. -/
structure FeaturedEntry where
  period : Date
  volume : ℚ
  value : ℚ
  avgTransactionValue : PdVal
  yoyVolumeGrowth : PdVal
deriving DecidableEq, Repr

/-- Column `round(df.TransactionVolume_Cr.pct_change(12) * 100, 2)` at row `t`:
NaN for the first 12 rows (the shifted series is NaN there), otherwise the
rounded percentage built from the float division `volume[t]/volume[t-12]`. -/
def yoyAt (df : List Entry) (t : Nat) : PdVal :=
  if t < 12 then PdVal.nan
  else
    (pdDiv (df.getD t default).volume (df.getD (t - 12) default).volume).app
      (fun q => round2 ((q - 1) * 100))

/-- Feature engineering, `create_features`: adds the two derived columns to every row, dropping
and reordering nothing. -/
def create_features (df : List Entry) : List FeaturedEntry :=
  (List.range df.length).map fun t =>
    let e := df.getD t default
    { period := e.period
      volume := e.volume
      value := e.value
      avgTransactionValue := (pdDiv e.value e.volume).app round2
      yoyVolumeGrowth := yoyAt df t }

/-- Forget the engineered columns of a featured row. -/
def toEntry (f : FeaturedEntry) : Entry := ⟨f.period, f.volume, f.value⟩

/-- Projection `df.reset_index()[['Date', 'TransactionVolume_Cr']]`: the (ds, y)
frame handed to Prophet. -/
def prophetInput (df : List FeaturedEntry) : List (Date × ℚ) :=
  df.map fun e => (e.period, e.volume)

/-- Slice `prophet_df.iloc[:-12]` (Python's negative slice truncates at 0, which
is exactly `Nat` subtraction). -/
def trainSplit (l : List (Date × ℚ)) : List (Date × ℚ) :=
  l.take (l.length - 12)

/-- Slice `prophet_df.iloc[-12:]`. -/
def testSplit (l : List (Date × ℚ)) : List (Date × ℚ) :=
  l.drop (l.length - 12)

/-- The evaluation phase of `forecast_transactions` with the external
forecaster abstracted: fit a model on the training slice, then predict on
the holdout's dates only (`model.predict(test[['ds']])`). -/
def evalPredictions {M : Type} (fit : List (Date × ℚ) → M)
    (predict : M → List Date → List ℚ) (df : List FeaturedEntry) : List ℚ :=
  predict (fit (trainSplit (prophetInput df)))
    ((testSplit (prophetInput df)).map Prod.fst)

/-- Metric `sklearn.metrics.mean_absolute_error` on the holdout actual volumes
and the predicted volumes. -/
def mean_absolute_error (ys ps : List ℚ) : ℚ :=
  (List.zipWith (fun a b => |a - b|) ys ps).sum / ys.length

/-- Metric `sklearn.metrics.mean_squared_error`; the script's RMSE is
`Real.sqrt` of this. -/
def mean_squared_error (ys ps : List ℚ) : ℚ :=
  (List.zipWith (fun a b => (a - b) ^ 2) ys ps).sum / ys.length

/-- Modelled from the spec: the external grid generator
`make_future_dataframe(periods, freq='MS')` (it lives in the forecasting
library, not in this repository) — "generate a period grid covering all
historical periods plus 24 future periods at monthly granularity,
anchored to the first-of-month convention". -/
def make_future_dataframe (history : List Date) (periods : Nat) : List Date :=
  match history.getLast? with
  | none => []
  | some last => history ++ monthsFrom (nextMonth last) periods

/-- The grid the final forecast is predicted on:
`full_model.make_future_dataframe(periods=24, freq='MS')`. -/
def final_grid (df : List FeaturedEntry) : List Date :=
  make_future_dataframe (df.map fun e => e.period) 24

instance : Inhabited FeaturedEntry := ⟨⟨default, 0, 0, PdVal.nan, PdVal.nan⟩⟩

/-- Strict ascending order on first-of-month dates. -/
def dateLt (a b : Date) : Prop := monthIdx a < monthIdx b

instance (a b : Date) : Decidable (dateLt a b) := Nat.decLt _ _

instance : IsTrans Date dateLt := ⟨fun _ _ _ => Nat.lt_trans⟩

/-- The cleaned series is ascending by period. -/
def ascendingByPeriod (l : List Entry) : Prop :=
  List.Chain' dateLt (l.map Entry.period)

instance (l : List Entry) : Decidable (ascendingByPeriod l) := by
  unfold ascendingByPeriod; infer_instance

/-- Thirteen consecutive monthly periods, used by concrete instances. -/
def demoPeriods : List Date := monthsFrom ⟨2021, 1, 1⟩ 13

/-- A 13-month featured series with volumes 0, 1, …, 12. -/
def demoA : List FeaturedEntry :=
  (List.range 13).map fun t =>
    ⟨demoPeriods.getD t default, (t : ℚ), 1, PdVal.nan, PdVal.nan⟩

/-- Same as `demoA` except for the volume of the very last (holdout)
period. -/
def demoB : List FeaturedEntry :=
  (List.range 13).map fun t =>
    ⟨demoPeriods.getD t default, if t = 12 then 999 else (t : ℚ), 1,
      PdVal.nan, PdVal.nan⟩

/-- C1: the evaluation is leakage-free.  The evaluation model is fitted on
the training slice only and the prediction request carries only the
holdout's dates, so any two featured series that agree on the training
slice (periods and volumes of `entries[0 : N-12]`) and on the holdout's
dates receive identical predictions from any forecaster, regardless of
their holdout volumes. -/
theorem C1_evaluation_leakage_free {M : Type} (fit : List (Date × ℚ) → M)
    (predict : M → List Date → List ℚ) (df1 df2 : List FeaturedEntry)
    (hpre : trainSplit (prophetInput df1) = trainSplit (prophetInput df2))
    (hdates : (testSplit (prophetInput df1)).map Prod.fst
            = (testSplit (prophetInput df2)).map Prod.fst) :
    evalPredictions fit predict df1 = evalPredictions fit predict df2 := by
  unfold evalPredictions
  rw [hpre, hdates]

/-- Witness for C1 at two concrete 13-month series that differ exactly in
the last (holdout) volume: the hypotheses hold by computation and the
predictions coincide. -/
theorem C1_evaluation_leakage_free_witness :
    evalPredictions (fun l => l) (fun _ ds => ds.map fun _ => (0 : ℚ)) demoA
      = evalPredictions (fun l => l) (fun _ ds => ds.map fun _ => (0 : ℚ)) demoB :=
  C1_evaluation_leakage_free (fun l => l) (fun _ ds => ds.map fun _ => (0 : ℚ))
    demoA demoB (by decide) (by decide)

/-- C2 (amended): for every featured series the evaluation split is the
positional pair `take (N-12)` / `drop (N-12)` — Python's negative slices
truncate at zero exactly like Nat subtraction — so it always partitions
the series; for N > 12 the holdout is exactly the last 12 entries, while
for N ≤ 12 the training slice is empty (length N − 12 = 0) and the holdout
is the whole series of length `min 12 N`. -/
theorem C2_split_partition (df : List FeaturedEntry) :
    trainSplit (prophetInput df) ++ testSplit (prophetInput df) = prophetInput df ∧
    trainSplit (prophetInput df) = (prophetInput df).take (df.length - 12) ∧
    testSplit (prophetInput df) = (prophetInput df).drop (df.length - 12) ∧
    (trainSplit (prophetInput df)).length = df.length - 12 ∧
    (testSplit (prophetInput df)).length = min 12 df.length := by
  have hlen : (prophetInput df).length = df.length := List.length_map _ _
  refine ⟨List.take_append_drop _ _, by rw [trainSplit, hlen], by rw [testSplit, hlen], ?_, ?_⟩
  · rw [trainSplit, List.length_take, hlen]
    omega
  · rw [testSplit, List.length_drop, hlen]
    omega

/-- A featured series of exactly 12 months. -/
def s12 : List FeaturedEntry :=
  (List.range 12).map fun t =>
    ⟨demoPeriods.getD t default, (t : ℚ) + 1, 1, PdVal.nan, PdVal.nan⟩

/-- Counterexample to C2's failure clause: at N = 12 the evaluation does
not fail loudly or explicitly — the code performs no length check.  The
training slice is empty, and the evaluation proceeds to fit on it and to
produce 12 predictions (here under a forecaster model that accepts an
empty fit); any observed failure comes from the external library's own
precondition, not from this code. -/
theorem C2_no_explicit_failure_at_12 :
    trainSplit (prophetInput s12) = [] ∧
    evalPredictions (fun _ => ()) (fun _ ds => ds.map fun _ => (0 : ℚ)) s12
      = List.replicate 12 0 := by
  constructor
  · decide
  · decide

/-- C10: feature derivation is non-destructive — the featured series has
exactly the rows of the input series, in order, with the original period,
volume and value fields unchanged (only the two derived columns are
added, which is all the `FeaturedEntry` type adds to `Entry`). -/
theorem C10_features_non_destructive (df : List Entry) :
    (create_features df).length = df.length ∧
    (create_features df).map toEntry = df := by
  have hlen : (create_features df).length = df.length := by
    simp [create_features]
  refine ⟨hlen, ?_⟩
  apply List.ext_getElem
  · simp [hlen]
  · intro i h1 h2
    simp only [List.getElem_map, create_features, List.getElem_range, toEntry]
    have : df.getD i default = df[i] := List.getD_eq_getElem df default h2
    rw [this]

/-- C3 (amended): the featured series' YoY column at row `t` is the
positional 12-lag percentage.  It is NaN (the undefined marker) for every
`t < 12`, and for `t ≥ 12` it equals `(volume[t]/volume[t-12] − 1)×100`
rounded to 2 decimals provided the lagged volume is nonzero; a zero lagged
volume instead reproduces the float division's NaN/±infinity. -/
theorem C3_yoy_growth_formula (df : List Entry) (t : Nat) (ht : t < df.length) :
    ((create_features df).getD t default).yoyVolumeGrowth = yoyAt df t ∧
    (t < 12 → yoyAt df t = PdVal.nan) ∧
    (12 ≤ t → (df.getD (t - 12) default).volume ≠ 0 →
      yoyAt df t = PdVal.num (round2
        (((df.getD t default).volume / (df.getD (t - 12) default).volume - 1) * 100))) := by
  refine ⟨?_, ?_, ?_⟩
  · have h2 : t < (create_features df).length := by simpa [create_features] using ht
    rw [List.getD_eq_getElem _ _ h2]
    simp [create_features]
  · intro h
    simp [yoyAt, h]
  · intro h hnz
    rw [yoyAt, if_neg (by omega), pdDiv, if_pos hnz]
    rfl

/-- A 13-month cleaned series with volumes 100, 101, …, 112. -/
def demo13 : List Entry :=
  [⟨⟨2021, 1, 1⟩, 100, 1⟩, ⟨⟨2021, 2, 1⟩, 101, 1⟩, ⟨⟨2021, 3, 1⟩, 102, 1⟩,
   ⟨⟨2021, 4, 1⟩, 103, 1⟩, ⟨⟨2021, 5, 1⟩, 104, 1⟩, ⟨⟨2021, 6, 1⟩, 105, 1⟩,
   ⟨⟨2021, 7, 1⟩, 106, 1⟩, ⟨⟨2021, 8, 1⟩, 107, 1⟩, ⟨⟨2021, 9, 1⟩, 108, 1⟩,
   ⟨⟨2021, 10, 1⟩, 109, 1⟩, ⟨⟨2021, 11, 1⟩, 110, 1⟩, ⟨⟨2021, 12, 1⟩, 111, 1⟩,
   ⟨⟨2022, 1, 1⟩, 112, 1⟩]

/-- Witness for C3 at `demo13`, row 12: volume 112 against lag 100 gives a
defined growth of exactly 12%. -/
theorem C3_yoy_growth_formula_witness : yoyAt demo13 12 = PdVal.num 12 := by
  have h := (C3_yoy_growth_formula demo13 12 (by decide)).2.2 (by decide) (by decide)
  have hv : (demo13.getD 12 default).volume = 112 := by decide
  have hl : (demo13.getD (12 - 12) default).volume = 100 := by decide
  rw [h, hv, hl, show ((112 : ℚ) / 100 - 1) * 100 = 12 by norm_num, round2]
  norm_num

/-- A 13-month cleaned series whose volumes are all zero. -/
def s13zero : List Entry :=
  (List.range 13).map fun t => ⟨demoPeriods.getD t default, 0, 1⟩

/-- Counterexample to C3 as stated: on `s13zero` the YoY column is
undefined (NaN, from the float division 0/0) at row 12 as well, so the
undefined rows are not exactly the first 12 and row 12 carries no rounded
numeric value. -/
theorem C3_counterexample_zero_lag :
    s13zero.length = 13 ∧
    ((create_features s13zero).getD 12 default).yoyVolumeGrowth = PdVal.nan := by
  constructor
  · decide
  · decide

/-- C4, the code evaluated at the failing input: a retained period with
volume 0 and value 7 makes `AvgTransactionValue_Rs` the float +infinity,
not an undefined marker (the defect the design notes flag); with a nonzero
volume the column is the correctly rounded ratio. -/
theorem C4_avg_value_at_zero_volume :
    ((create_features [⟨⟨2021, 1, 1⟩, 0, 7⟩]).getD 0 default).avgTransactionValue
      = PdVal.posInf ∧
    ((create_features [⟨⟨2021, 1, 1⟩, 4, 7⟩]).getD 0 default).avgTransactionValue
      = PdVal.num (7 / 4) := by
  constructor
  · decide
  · show (pdDiv 7 4).app round2 = PdVal.num (7 / 4)
    rw [pdDiv, if_pos (by norm_num : (4 : ℚ) ≠ 0)]
    show PdVal.num (round2 (7 / 4)) = PdVal.num (7 / 4)
    rw [round2, show (7 : ℚ) / 4 * 100 = 175 by norm_num]
    norm_num

/-- A kept row's period is the first-of-month date built from its year and
month. -/
theorem coerceRow_period {r : RawRow} {e : Entry} (h : coerceRow r = some e) :
    e.period = mkDate r := by
  unfold coerceRow at h
  split at h
  · injection h with h'
    subst h'
    rfl
  · exact Option.noConfusion h

/-- A successful load yields exactly the coercion-filtered rows, in input
order. -/
theorem load_ok_eq {rows : List RawRow} {ents : List Entry}
    (hok : load_and_clean_data (some rows) = Except.ok ents) :
    ents = rows.filterMap coerceRow := by
  simp only [load_and_clean_data] at hok
  split at hok
  · injection hok with h
    exact h.symm
  · injection hok

/-- The cleaned series' period column is a subsequence of the input rows'
derived period column. -/
theorem cleaned_periods_sublist (rows : List RawRow) :
    ((rows.filterMap coerceRow).map Entry.period).Sublist (rows.map mkDate) := by
  induction rows with
  | nil => simp
  | cons r tl ih =>
      cases h : coerceRow r with
      | none =>
          rw [List.filterMap_cons_none h, List.map_cons]
          exact ih.cons _
      | some e =>
          rw [List.filterMap_cons_some h, List.map_cons, List.map_cons,
            coerceRow_period h]
          exact ih.cons₂ _

/-- C5 (amended): ingestion preserves the input's row order (nothing
sorts), so whenever the input rows arrive in ascending period order the
cleaned series is ascending by period; the evaluation split then takes its
positional prefix and trailing holdout with respect to that order. -/
theorem C5_order_preserved (rows : List RawRow) (ents : List Entry)
    (hok : load_and_clean_data (some rows) = Except.ok ents)
    (hsorted : List.Chain' dateLt (rows.map mkDate)) :
    ascendingByPeriod ents := by
  rw [load_ok_eq hok]
  unfold ascendingByPeriod
  rw [List.chain'_iff_pairwise] at hsorted ⊢
  exact hsorted.sublist (cleaned_periods_sublist rows)

/-- Two well-formed rows in ascending period order. -/
def rowsSorted : List RawRow :=
  [⟨2021, 1, RawCell.numTok 10, RawCell.numTok 20⟩,
   ⟨2021, 2, RawCell.numTok 11, RawCell.numTok 22⟩]

/-- Witness for C5 on a concrete ascending input. -/
theorem C5_order_preserved_witness :
    ascendingByPeriod [⟨⟨2021, 1, 1⟩, 10, 20⟩, ⟨⟨2021, 2, 1⟩, 11, 22⟩] :=
  C5_order_preserved rowsSorted _ rfl
    (by simp [rowsSorted, mkDate, List.chain'_cons, dateLt, monthIdx])

/-- The same two rows with their file order reversed. -/
def rowsOutOfOrder : List RawRow :=
  [⟨2021, 2, RawCell.numTok 10, RawCell.numTok 20⟩,
   ⟨2021, 1, RawCell.numTok 11, RawCell.numTok 22⟩]

/-- Counterexample to C5 as stated: the code never sorts, so an input
table whose rows are not in ascending period order loads successfully into
a cleaned series that is not ascending by period. -/
theorem C5_counterexample_unsorted_input :
    load_and_clean_data (some rowsOutOfOrder)
      = Except.ok [⟨⟨2021, 2, 1⟩, 10, 20⟩, ⟨⟨2021, 1, 1⟩, 11, 22⟩] ∧
    ¬ ascendingByPeriod [⟨⟨2021, 2, 1⟩, 10, 20⟩, ⟨⟨2021, 1, 1⟩, 11, 22⟩] := by
  exact ⟨rfl, by simp [ascendingByPeriod, List.chain'_cons, dateLt, monthIdx]⟩

/-- Rewriting `filterMap coerceRow` in filter-then-map form: the kept rows are
exactly those whose two numeric cells coerce, each carried to its entry. -/
theorem filterMap_coerceRow_eq (rows : List RawRow) :
    rows.filterMap coerceRow
      = (rows.filter fun r =>
            (toNumeric r.volumeCell).isSome && (toNumeric r.valueCell).isSome).map
          fun r => ⟨mkDate r, (toNumeric r.volumeCell).getD 0,
                    (toNumeric r.valueCell).getD 0⟩ := by
  induction rows with
  | nil => rfl
  | cons r tl ih =>
      cases hv : toNumeric r.volumeCell <;> cases hw : toNumeric r.valueCell <;>
        simp [coerceRow, List.filterMap_cons, List.filter_cons, hv, hw, ih]

/-- C6: cleaning never grows the table, and a row of the input survives
into the cleaned output exactly when both its volume and value cells
coerce to non-missing numbers (stated extensionally: the output is the
coercible rows, in order, with their coerced numbers). -/
theorem C6_cleaning_keeps_coercible_rows (rows : List RawRow) (ents : List Entry)
    (hok : load_and_clean_data (some rows) = Except.ok ents) :
    ents.length ≤ rows.length ∧
    ents = (rows.filter fun r =>
              (toNumeric r.volumeCell).isSome && (toNumeric r.valueCell).isSome).map
            fun r => ⟨mkDate r, (toNumeric r.volumeCell).getD 0,
                      (toNumeric r.valueCell).getD 0⟩ := by
  rw [load_ok_eq hok]
  exact ⟨List.length_filterMap_le _ _, filterMap_coerceRow_eq rows⟩

/-- Three rows: one fully numeric, one with a non-numeric volume cell, one
with an empty value cell. -/
def rowsMixed : List RawRow :=
  [⟨2021, 1, RawCell.numTok 10, RawCell.numTok 20⟩,
   ⟨2021, 2, RawCell.strTok, RawCell.numTok 5⟩,
   ⟨2021, 3, RawCell.numTok 7, RawCell.missing⟩]

/-- Witness for C6: of the three input rows only the fully numeric one
survives cleaning. -/
theorem C6_cleaning_keeps_coercible_rows_witness :
    ([⟨⟨2021, 1, 1⟩, 10, 20⟩] : List Entry).length ≤ rowsMixed.length ∧
    ([⟨⟨2021, 1, 1⟩, 10, 20⟩] : List Entry)
      = (rowsMixed.filter fun r =>
            (toNumeric r.volumeCell).isSome && (toNumeric r.valueCell).isSome).map
          fun r => ⟨mkDate r, (toNumeric r.volumeCell).getD 0,
                    (toNumeric r.valueCell).getD 0⟩ :=
  C6_cleaning_keeps_coercible_rows rowsMixed _ rfl

/-- C7 (amended): the run aborts with the file-not-found condition exactly
when the source cannot be opened; an opened source never reports that
condition, but a row with an invalid (year, month) pair makes the whole
run fail with the uncaught date error instead of being excluded; and every
kept row's period is the first day of its (year, month). -/
theorem C7_ingestion_failure_modes :
    load_and_clean_data none = Except.error LoadErr.fileNotFound ∧
    (∀ rows : List RawRow,
      load_and_clean_data (some rows) ≠ Except.error LoadErr.fileNotFound) ∧
    (∀ rows : List RawRow, rows.all validMonth = false →
      load_and_clean_data (some rows) = Except.error LoadErr.invalidDate) ∧
    (∀ r : RawRow, ∀ e : Entry, coerceRow r = some e →
      e.period = ⟨r.year, r.month, 1⟩) := by
  refine ⟨rfl, ?_, ?_, ?_⟩
  · intro rows h
    simp only [load_and_clean_data] at h
    split at h
    · injection h
    · injection h with h'
      exact LoadErr.noConfusion h'
  · intro rows hfalse
    simp [load_and_clean_data, hfalse]
  · intro r e h
    exact coerceRow_period h

/-- Witness for C7's invalid-date clause at month 0. -/
theorem C7_ingestion_failure_modes_witness :
    load_and_clean_data (some [⟨2021, 0, RawCell.numTok 1, RawCell.numTok 1⟩])
      = Except.error LoadErr.invalidDate :=
  C7_ingestion_failure_modes.2.2.1 [⟨2021, 0, RawCell.numTok 1, RawCell.numTok 1⟩]
    (by decide)

/-- Counterexample to C7 as stated: a row with month 13 is not coerced or
excluded — the whole run fails with the date error (and in particular does
not produce the cleaned series without that row). -/
theorem C7_counterexample_invalid_month :
    load_and_clean_data (some [⟨2021, 13, RawCell.numTok 5, RawCell.numTok 7⟩])
      = Except.error LoadErr.invalidDate ∧
    load_and_clean_data (some [⟨2021, 13, RawCell.numTok 5, RawCell.numTok 7⟩])
      ≠ Except.ok [] := by
  refine ⟨rfl, fun h => ?_⟩
  rw [show load_and_clean_data (some [⟨2021, 13, RawCell.numTok 5, RawCell.numTok 7⟩])
        = Except.error LoadErr.invalidDate from rfl] at h
  exact Except.noConfusion h

/-- Iterated one-month step: `n` applications of `nextMonth`. -/
def addMonths (d : Date) : Nat → Date
  | 0 => d
  | n + 1 => addMonths (nextMonth d) n

theorem monthsFrom_length (d : Date) (n : Nat) : (monthsFrom d n).length = n := by
  induction n generalizing d with
  | zero => rfl
  | succ n ih => simp [monthsFrom, ih]

theorem addMonths_succ (d : Date) (n : Nat) :
    addMonths d (n + 1) = nextMonth (addMonths d n) := by
  induction n generalizing d with
  | zero => rfl
  | succ n ih => exact ih (nextMonth d)

theorem monthsFrom_add (d : Date) (a b : Nat) :
    monthsFrom d (a + b) = monthsFrom d a ++ monthsFrom (addMonths d a) b := by
  induction a generalizing d with
  | zero => rw [Nat.zero_add]; rfl
  | succ a ih =>
      rw [show a + 1 + b = (a + b) + 1 by omega, monthsFrom,
        show monthsFrom d (a + 1) = d :: monthsFrom (nextMonth d) a from rfl,
        List.cons_append, ih (nextMonth d)]
      rfl

theorem monthsFrom_getLast (d : Date) (n : Nat) :
    (monthsFrom d (n + 1)).getLast? = some (addMonths d n) := by
  rw [monthsFrom_add d n 1,
    show monthsFrom (addMonths d n) 1 = [addMonths d n] from rfl]
  exact List.getLast?_concat _

theorem nextMonth_month_pos (d : Date) : 1 ≤ (nextMonth d).month := by
  unfold nextMonth
  split <;> simp

theorem monthIdx_nextMonth (d : Date) (hm : 1 ≤ d.month) :
    monthIdx (nextMonth d) = monthIdx d + 1 := by
  unfold nextMonth monthIdx
  split <;> dsimp only <;> omega

theorem monthsFrom_chain' (d : Date) (n : Nat) :
    List.Chain' (fun a b => b = nextMonth a) (monthsFrom d n) := by
  induction n generalizing d with
  | zero => simp [monthsFrom]
  | succ n ih =>
      cases n with
      | zero => simp [monthsFrom]
      | succ m =>
          rw [monthsFrom, monthsFrom, List.chain'_cons]
          exact ⟨rfl, ih (nextMonth d)⟩

theorem monthsFrom_lt (d : Date) (hm : 1 ≤ d.month) (n : Nat) :
    ∀ e ∈ monthsFrom (nextMonth d) n, monthIdx d < monthIdx e := by
  induction n generalizing d with
  | zero => simp [monthsFrom]
  | succ n ih =>
      intro e he
      rw [monthsFrom] at he
      rcases List.mem_cons.mp he with h | h
      · rw [h, monthIdx_nextMonth d hm]
        omega
      · have h1 := ih (nextMonth d) (nextMonth_month_pos d) e h
        have h2 := monthIdx_nextMonth d hm
        omega

theorem monthsFrom_pairwise (d : Date) (hm : 1 ≤ d.month) (n : Nat) :
    List.Pairwise (fun a b => monthIdx a < monthIdx b) (monthsFrom d n) := by
  induction n generalizing d with
  | zero => exact List.Pairwise.nil
  | succ n ih =>
      rw [monthsFrom, List.pairwise_cons]
      exact ⟨monthsFrom_lt d hm n, ih (nextMonth d) (nextMonth_month_pos d)⟩

theorem monthsFrom_nodup (d : Date) (hm : 1 ≤ d.month) (n : Nat) :
    (monthsFrom d n).Nodup :=
  (monthsFrom_pairwise d hm n).imp fun h he => by
    rw [he] at h
    exact Nat.lt_irrefl _ h

/-- C8 (amended): whenever the featured series' H historical periods form
a contiguous ascending monthly sequence (H ≥ 1), the full-horizon grid is
that sequence extended by 24 further months: length exactly H + 24, each
step exactly one month forward, and no duplicate periods. -/
theorem C8_forecast_grid (d0 : Date) (H : Nat) (df : List FeaturedEntry)
    (hm : 1 ≤ d0.month) (hH : 1 ≤ H)
    (hist : df.map (fun e => e.period) = monthsFrom d0 H) :
    final_grid df = monthsFrom d0 (H + 24) ∧
    (final_grid df).length = H + 24 ∧
    List.Chain' (fun a b => b = nextMonth a) (final_grid df) ∧
    (final_grid df).Nodup := by
  obtain ⟨n, rfl⟩ : ∃ n, H = n + 1 := ⟨H - 1, by omega⟩
  have hgrid : final_grid df = monthsFrom d0 (n + 1 + 24) := by
    unfold final_grid make_future_dataframe
    rw [hist, monthsFrom_getLast]
    show monthsFrom d0 (n + 1) ++ monthsFrom (nextMonth (addMonths d0 n)) 24
        = monthsFrom d0 (n + 1 + 24)
    rw [← addMonths_succ, ← monthsFrom_add]
  refine ⟨hgrid, ?_, ?_, ?_⟩
  · rw [hgrid, monthsFrom_length]
  · rw [hgrid]
    exact monthsFrom_chain' d0 _
  · rw [hgrid]
    exact monthsFrom_nodup d0 hm _

/-- A featured series of 13 contiguous months. -/
def demoC8 : List FeaturedEntry :=
  (monthsFrom ⟨2021, 1, 1⟩ 13).map fun d => ⟨d, 1, 1, PdVal.nan, PdVal.nan⟩

/-- Witness for C8 on 13 contiguous months starting January 2021. -/
theorem C8_forecast_grid_witness :
    final_grid demoC8 = monthsFrom ⟨2021, 1, 1⟩ (13 + 24) ∧
    (final_grid demoC8).length = 13 + 24 ∧
    List.Chain' (fun a b => b = nextMonth a) (final_grid demoC8) ∧
    (final_grid demoC8).Nodup :=
  C8_forecast_grid ⟨2021, 1, 1⟩ 13 demoC8 (by decide) (by decide) (by decide)

/-- A featured series whose two periods skip February. -/
def gapDF : List FeaturedEntry :=
  [⟨⟨2021, 1, 1⟩, 1, 1, PdVal.nan, PdVal.nan⟩,
   ⟨⟨2021, 3, 1⟩, 1, 1, PdVal.nan, PdVal.nan⟩]

/-- Counterexample to C8 as stated: with a gapped history (January then
March) the grid still has length H + 24 but its very first step jumps two
months, so the grid does not increase by exactly one month at each step. -/
theorem C8_counterexample_gapped_history :
    (final_grid gapDF).length = 2 + 24 ∧
    ¬ List.Chain' (fun a b => b = nextMonth a) (final_grid gapDF) := by
  constructor
  · rfl
  · intro h
    exact absurd (List.chain'_cons.mp h).1 (by decide)

theorem sum_sq_nonneg_list (l : List ℚ) : 0 ≤ (l.map fun x => x ^ 2).sum := by
  apply List.sum_nonneg
  intro x hx
  rcases List.mem_map.mp hx with ⟨y, _, rfl⟩
  exact sq_nonneg y

/-- Cauchy–Schwarz against the all-ones vector, in list form. -/
theorem sq_sum_le_length_mul_sum_sq (l : List ℚ) :
    l.sum ^ 2 ≤ l.length * (l.map fun x => x ^ 2).sum := by
  induction l with
  | nil => simp
  | cons a tl ih =>
      rcases eq_or_ne tl [] with rfl | hne
      · simp
      · have hT : 0 ≤ (tl.map fun x => x ^ 2).sum := sum_sq_nonneg_list tl
        have hk1 : (1 : ℚ) ≤ tl.length := by
          have h := List.length_pos.mpr hne
          exact_mod_cast h
        rw [List.sum_cons, List.length_cons, List.map_cons, List.sum_cons]
        push_cast
        nlinarith [sq_nonneg ((tl.length : ℚ) * a - tl.sum), ih, hk1,
          mul_nonneg (by linarith : (0 : ℚ) ≤ 1 + (tl.length : ℚ))
            (by linarith [ih] : (0 : ℚ) ≤ (tl.length : ℚ)
              * (tl.map fun x => x ^ 2).sum - tl.sum ^ 2)]

theorem zipAbs_sum_nonneg (ys ps : List ℚ) :
    0 ≤ (List.zipWith (fun a b => |a - b|) ys ps).sum := by
  induction ys generalizing ps with
  | nil => simp
  | cons a tl ih =>
      cases ps with
      | nil => simp
      | cons b ps =>
          rw [List.zipWith_cons_cons, List.sum_cons]
          have := ih ps
          have := abs_nonneg (a - b)
          linarith

theorem zipAbs_map_sq (ys ps : List ℚ) :
    (List.zipWith (fun a b => |a - b|) ys ps).map (fun x => x ^ 2)
      = List.zipWith (fun a b => (a - b) ^ 2) ys ps := by
  induction ys generalizing ps with
  | nil => simp
  | cons a tl ih =>
      cases ps with
      | nil => simp
      | cons b ps => simp [ih, sq_abs]

/-- The synthetic holdout from the spec's test idea: eleven unit errors and
one error of five. -/
def errActual : List ℚ := [1, 1, 1, 1, 1, 1, 1, 1, 1, 1, 1, 5]

/-- Predictions of zero throughout, so the errors are the actuals. -/
def errPred : List ℚ := [0, 0, 0, 0, 0, 0, 0, 0, 0, 0, 0, 0]

/-- C9: for every holdout/prediction pair the scorer's metrics satisfy
RMSE ≥ 0 and MAE ≤ RMSE (RMSE being the real square root of the mean
squared error the script takes), and on the synthetic error vector
[1,…,1,5] the inequality is strict. -/
theorem C9_rmse_dominates_mae (ys ps : List ℚ) (_hlen : ps.length = ys.length) :
    0 ≤ Real.sqrt (mean_squared_error ys ps) ∧
    (mean_absolute_error ys ps : ℝ) ≤ Real.sqrt (mean_squared_error ys ps) ∧
    (mean_absolute_error errActual errPred : ℝ)
      < Real.sqrt (mean_squared_error errActual errPred) := by
  have hS : 0 ≤ (List.zipWith (fun a b => |a - b|) ys ps).sum := zipAbs_sum_nonneg ys ps
  have hT : 0 ≤ (List.zipWith (fun a b => (a - b) ^ 2) ys ps).sum := by
    rw [← zipAbs_map_sq]
    exact sum_sq_nonneg_list _
  have key : (List.zipWith (fun a b => |a - b|) ys ps).sum ^ 2
      ≤ (List.zipWith (fun a b => |a - b|) ys ps).length
        * (List.zipWith (fun a b => (a - b) ^ 2) ys ps).sum := by
    rw [← zipAbs_map_sq]
    exact sq_sum_le_length_mul_sum_sq _
  have hklen : (List.zipWith (fun a b => |a - b|) ys ps).length ≤ ys.length := by
    rw [List.length_zipWith]
    exact Nat.min_le_left _ _
  refine ⟨Real.sqrt_nonneg _, ?_, ?_⟩
  · rcases Nat.eq_zero_or_pos ys.length with hn | hn
    · have h0 : mean_absolute_error ys ps = 0 := by
        unfold mean_absolute_error
        rw [hn]
        simp
      rw [h0]
      push_cast
      exact Real.sqrt_nonneg _
    · have hnq : (0 : ℚ) < ys.length := by exact_mod_cast hn
      have hmae0 : 0 ≤ mean_absolute_error ys ps :=
        div_nonneg hS (le_of_lt hnq)
      have hmse0 : 0 ≤ mean_squared_error ys ps :=
        div_nonneg hT (le_of_lt hnq)
      have hq : mean_absolute_error ys ps ^ 2 ≤ mean_squared_error ys ps := by
        unfold mean_absolute_error mean_squared_error
        rw [div_pow, div_le_div_iff₀ (by positivity) hnq]
        have h1 : (List.zipWith (fun a b => |a - b|) ys ps).sum ^ 2
            ≤ (ys.length : ℚ) * (List.zipWith (fun a b => (a - b) ^ 2) ys ps).sum := by
          refine le_trans key ?_
          have : ((List.zipWith (fun a b => |a - b|) ys ps).length : ℚ)
              ≤ (ys.length : ℚ) := by exact_mod_cast hklen
          nlinarith [hT]
        nlinarith [h1, hT, hnq.le]
      rw [Real.le_sqrt (by exact_mod_cast hmae0) (by exact_mod_cast hmse0)]
      exact_mod_cast hq
  · have hmae : mean_absolute_error errActual errPred = 4 / 3 := by
      unfold mean_absolute_error
      norm_num [errActual, errPred]
    have hmse : mean_squared_error errActual errPred = 3 := by
      unfold mean_squared_error
      norm_num [errActual, errPred]
    rw [hmae, hmse]
    have h3 : (4 / 3 : ℝ) < Real.sqrt 3 := by
      rw [Real.lt_sqrt (by norm_num)]
      norm_num
    push_cast
    exact h3

/-- Witness for C9 at the synthetic error vector. -/
theorem C9_rmse_dominates_mae_witness :
    0 ≤ Real.sqrt (mean_squared_error errActual errPred) ∧
    (mean_absolute_error errActual errPred : ℝ)
      ≤ Real.sqrt (mean_squared_error errActual errPred) ∧
    (mean_absolute_error errActual errPred : ℝ)
      < Real.sqrt (mean_squared_error errActual errPred) :=
  C9_rmse_dominates_mae errActual errPred rfl
